import Mathlib

/-!
Verification of the trace-context propagation core of a Next.js +
OpenTelemetry example application.

The development shallowly embeds the program's source:

* `src/middleware.ts` — the middleware (Context Generator): `toHex`,
  `generateTraceParent`, and `middleware` itself, which generates a fresh
  W3C `traceparent` carrier string from a cryptographically random byte
  source, logs one line, and forwards the request with the header set.
  Randomness is made explicit: the bytes that `crypto.getRandomValues`
  writes into the two `Uint8Array`s are parameters (`traceIdBytes`,
  `spanIdBytes`), so theorems quantify over every possible output of the
  random source.  A byte is a `Nat` constrained to `< 256` where it
  matters.  The request's header map is embedded as a function
  `String → Option String` over canonical (lowercase) header names, with
  `Headers.prototype.set` as pointwise update.
* `src/util/ids.ts` — the Context Reader `getIds`.  The ambient
  OpenTelemetry state `trace.getSpan(context.active())` is embedded as an
  explicit `Option SpanContext` argument; `span?.spanContext() ?? ...`
  becomes a match on that option.

The Carrier decode contract (§4.2 of the design) is implemented by the
external instrumentation collaborator, not by this repository; it is
modelled from the spec's words (see `decodeCarrier`).
-/

/-! ## Hex encoding (src/middleware.ts, `toHex`) -/

/-- The lowercase hexadecimal digit character for `n < 16`, as produced by
JavaScript's `Number.prototype.toString(16)` for a single digit:
`0`–`9` are code points 48+n, `a`–`f` are code points 87+n. -/
def hexDigit (n : Nat) : Char :=
  if n < 10 then Char.ofNat (48 + n) else Char.ofNat (87 + n)

/-- `byte.toString(16).padStart(2, '0')` for a byte `b < 256`: the
two-digit lowercase hex encoding (high nibble then low nibble; for
`b < 16` the single digit is left-padded with `'0'`, which coincides with
emitting the high nibble `b / 16 = 0`). -/
def byteToHex (b : Nat) : String :=
  String.mk [hexDigit (b / 16), hexDigit (b % 16)]

/-- `toHex` from src/middleware.ts:
`Array.from(buffer, (byte) => byte.toString(16).padStart(2, '0')).join('')`. -/
def toHex (buffer : List Nat) : String :=
  String.join (buffer.map byteToHex)

/-- The character list underlying `toHex`, used to reason about the
encoding character by character. -/
def toHexChars : List Nat → List Char
  | [] => []
  | b :: bs => hexDigit (b / 16) :: hexDigit (b % 16) :: toHexChars bs

/-! ## The Context Generator (src/middleware.ts) -/

/-- The record returned by `generateTraceParent`. -/
structure TraceParentResult where
  traceParent : String
  traceId : String
  spanId : String
  deriving DecidableEq, Repr

/-- `generateTraceParent` from src/middleware.ts.  The bytes that
`crypto.getRandomValues` writes into the 16-byte and 8-byte `Uint8Array`s
are taken as arguments.  The version field is `toHex(new Uint8Array([0]))`
and the flags field is the literal string `'01'`; the carrier is the
template literal `` `${versionHex}-${traceIdHex}-${spanIdHex}-${flags}` ``. -/
def generateTraceParent (traceIdBytes spanIdBytes : List Nat) : TraceParentResult :=
  let versionHex := toHex [0]
  let traceIdHex := toHex traceIdBytes
  let spanIdHex := toHex spanIdBytes
  let flags := "01"
  { traceParent := versionHex ++ "-" ++ traceIdHex ++ "-" ++ spanIdHex ++ "-" ++ flags
    traceId := traceIdHex
    spanId := spanIdHex }

/-- The inbound `NextRequest`, reduced to the parts the middleware reads:
method, url, and the header map (canonical lowercase names). -/
structure NextRequest where
  method : String
  url : String
  headers : String → Option String

/-- `Headers.prototype.set`: after `h.set(name, value)`, looking up `name`
yields `value` and looking up any other name is unchanged. -/
def headersSet (h : String → Option String) (name value : String) :
    String → Option String :=
  fun n => if n = name then some value else h n

/-- What the middleware produces for one request: the log records emitted
(via `console.info`) and the header map of the forwarded request. -/
structure MiddlewareResult where
  logs : List String
  headers : String → Option String

/-- `middleware` from src/middleware.ts: destructure
`generateTraceParent()`, emit one `console.info` line, copy the request
headers, `set('traceparent', traceParent)`, and forward. -/
def middleware (req : NextRequest) (traceIdBytes spanIdBytes : List Nat) :
    MiddlewareResult :=
  let generated := generateTraceParent traceIdBytes spanIdBytes
  let logLine :=
    "[Request log from middleware]\ttraceId=" ++ generated.traceId ++
      "\tspanId=" ++ generated.spanId ++ "\tmethod=" ++ req.method ++
      "\turl=" ++ req.url
  let headers := headersSet req.headers "traceparent" generated.traceParent
  { logs := [logLine], headers := headers }

/-! ## The Context Reader (src/util/ids.ts) -/

/-- The span context object exposed by `span.spanContext()`: the two
string fields `getIds` reads. -/
structure SpanContext where
  traceId : String
  spanId : String
  deriving DecidableEq, Repr

/-- The pair returned by `getIds`. -/
structure Ids where
  traceId : String
  spanId : String
  deriving DecidableEq, Repr

/-- `getIds` from src/util/ids.ts.  The ambient
`trace.getSpan(context.active())` is an explicit `Option SpanContext`
argument (`none` = no active span); `span?.spanContext() ?? {traceId:
'null', spanId: 'null'}` selects the span's context when a span exists and
the sentinel object otherwise. -/
def getIds (span : Option SpanContext) : Ids :=
  match span with
  | some s => { traceId := s.traceId, spanId := s.spanId }
  | none => { traceId := "null", spanId := "null" }

/-! ## The Carrier grammar and codec -/

/-- A lowercase hexadecimal character: `[0-9a-f]`. -/
def isLowerHex (c : Char) : Bool :=
  (48 ≤ c.toNat && c.toNat ≤ 57) || (97 ≤ c.toNat && c.toNat ≤ 102)

/-- Split a character list at every `'-'` (the semantics of
`String.prototype.split('-')` / of "dash-separated fields"): always
returns at least one field, and `n` dashes yield `n + 1` fields. -/
def splitDash : List Char → List (List Char)
  | [] => [[]]
  | c :: cs =>
    if c = '-' then [] :: splitDash cs
    else
      match splitDash cs with
      | [] => [[c]]
      | f :: rest => (c :: f) :: rest

/-- The fixed carrier grammar
`^[0-9a-f]{2}-[0-9a-f]{32}-[0-9a-f]{16}-[0-9a-f]{2}$`: exactly four
dash-separated fields of widths 2, 32, 16, 2, every character lowercase
hex. -/
def matchesCarrierGrammar (s : String) : Bool :=
  match splitDash s.data with
  | [v, t, p, f] =>
    v.length == 2 && t.length == 32 && p.length == 16 && f.length == 2 &&
      v.all isLowerHex && t.all isLowerHex && p.all isLowerHex && f.all isLowerHex
  | _ => false

/-- A TraceContext value (§3 of the design): version byte, 16 traceId
bytes, 8 spanId bytes, flags byte. -/
structure TraceContext where
  version : Nat
  traceId : List Nat
  spanId : List Nat
  flags : Nat
  deriving DecidableEq, Repr

/-- A valid TraceContext: version 0, byte lists of the right length with
genuine bytes, non-zero traceId and spanId, 1-byte flags. -/
def ValidTraceContext (x : TraceContext) : Prop :=
  x.version = 0 ∧
  x.traceId.length = 16 ∧ x.spanId.length = 8 ∧
  (∀ b ∈ x.traceId, b < 256) ∧ (∀ b ∈ x.spanId, b < 256) ∧
  x.traceId ≠ List.replicate 16 0 ∧ x.spanId ≠ List.replicate 8 0 ∧
  x.flags < 256

instance (x : TraceContext) : Decidable (ValidTraceContext x) := by
  unfold ValidTraceContext; infer_instance

/-- The carrier formatting performed by the generator, as a function of a
TraceContext: `generateTraceParent` hardcodes the version field to
`toHex [0]` and the flags field to `'01'`, and encodes only the traceId
and spanId bytes. -/
def encodeCarrier (x : TraceContext) : String :=
  (generateTraceParent x.traceId x.spanId).traceParent

/-- Decode failure (§4.2): malformed carrier strings are rejected with an
`InvalidFormat` error. -/
inductive DecodeError where
  | invalidFormat
  deriving DecidableEq, Repr

/-- The numeric value of a lowercase hex character, `none` for any
non-hexadecimal character. -/
def hexVal (c : Char) : Option Nat :=
  if 48 ≤ c.toNat ∧ c.toNat ≤ 57 then some (c.toNat - 48)
  else if 97 ≤ c.toNat ∧ c.toNat ≤ 102 then some (c.toNat - 87)
  else none

/-- Parse a hex character list into bytes, two characters per byte;
fails on a non-hex character or an odd number of characters. -/
def parseHexBytes : List Char → Option (List Nat)
  | [] => some []
  | [_] => none
  | c1 :: c2 :: rest =>
    match hexVal c1, hexVal c2, parseHexBytes rest with
    | some hi, some lo, some bs => some ((16 * hi + lo) :: bs)
    | _, _, _ => none

/-- Decoding of the four dash-separated fields of a carrier string:
check the field widths (2/32/16/2), hex-parse every field, check the
version is the single supported value 0, and check that neither traceId
nor spanId is all-zero. -/
def decodeFields (fields : List (List Char)) : Except DecodeError TraceContext :=
  match fields with
  | [v, t, p, f] =>
    if v.length = 2 ∧ t.length = 32 ∧ p.length = 16 ∧ f.length = 2 then
      match parseHexBytes v, parseHexBytes t, parseHexBytes p, parseHexBytes f with
      | some [vb], some tb, some pb, some [fb] =>
        if vb = 0 ∧ tb ≠ List.replicate 16 0 ∧ pb ≠ List.replicate 8 0 then
          Except.ok { version := vb, traceId := tb, spanId := pb, flags := fb }
        else Except.error DecodeError.invalidFormat
      | _, _, _, _ => Except.error DecodeError.invalidFormat
    else Except.error DecodeError.invalidFormat
  | _ => Except.error DecodeError.invalidFormat

/-- Modelled from the spec: the §4.2 Carrier decode contract, which is
implemented by the external instrumentation collaborator and is not part
of this repository's sources.  "Given an arbitrary string, either parse it
into a TraceContext or fail with an `InvalidFormat` error when: the string
does not have exactly four dash-separated fields, any field has the wrong
character length, any field contains non-hexadecimal characters, the
version field is an unsupported value, or traceId/spanId decode to
all-zero."  The single supported version value is 0 (§3). -/
def decodeCarrier (s : String) : Except DecodeError TraceContext :=
  decodeFields (splitDash s.data)

/-! ## Helper lemmas: hex digits -/

theorem hexDigit_isLowerHex (n : Nat) (h : n < 16) :
    isLowerHex (hexDigit n) = true := by
  interval_cases n <;> decide

theorem isLowerHex_ne_dash (c : Char) (h : isLowerHex c = true) : c ≠ '-' := by
  intro he
  subst he
  simp [isLowerHex] at h

theorem hexVal_hexDigit (n : Nat) (h : n < 16) : hexVal (hexDigit n) = some n := by
  interval_cases n <;> decide

theorem hexDigit_eq_zero_iff (n : Nat) (h : n < 16) :
    hexDigit n = '0' ↔ n = 0 := by
  interval_cases n <;> simp <;> decide

/-! ## Helper lemmas: the hex encoding of a byte list -/

theorem toHex_data (bs : List Nat) : (toHex bs).data = toHexChars bs := by
  have key : ∀ (l : List Nat) (acc : String),
      ((l.map byteToHex).foldl (fun r s => r ++ s) acc).data = acc.data ++ toHexChars l := by
    intro l
    induction l with
    | nil => intro acc; simp [toHexChars]
    | cons b rest ih =>
      intro acc
      simp only [List.map_cons, List.foldl_cons, ih, String.data_append, toHexChars]
      simp [byteToHex]
  simpa [toHex, String.join] using key bs ""

theorem toHexChars_length (bs : List Nat) :
    (toHexChars bs).length = 2 * bs.length := by
  induction bs with
  | nil => rfl
  | cons b rest ih => simp [toHexChars, ih]; ring

theorem toHexChars_all_lowerHex (bs : List Nat) (h : ∀ b ∈ bs, b < 256) :
    ∀ c ∈ toHexChars bs, isLowerHex c = true := by
  induction bs with
  | nil => intro c hc; simp [toHexChars] at hc
  | cons b rest ih =>
    intro c hc
    have hb : b < 256 := h b (by simp)
    have hhi : b / 16 < 16 := Nat.div_lt_of_lt_mul (by omega)
    have hlo : b % 16 < 16 := Nat.mod_lt _ (by omega)
    simp only [toHexChars, List.mem_cons] at hc
    rcases hc with hc | hc | hc
    · exact hc ▸ hexDigit_isLowerHex _ hhi
    · exact hc ▸ hexDigit_isLowerHex _ hlo
    · exact ih (fun b hb => h b (by simp [hb])) c hc

theorem dash_not_mem_toHexChars (bs : List Nat) (h : ∀ b ∈ bs, b < 256) :
    '-' ∉ toHexChars bs := by
  intro hmem
  exact isLowerHex_ne_dash '-' (toHexChars_all_lowerHex bs h '-' hmem) rfl

theorem parseHexBytes_toHexChars (bs : List Nat) (h : ∀ b ∈ bs, b < 256) :
    parseHexBytes (toHexChars bs) = some bs := by
  induction bs with
  | nil => rfl
  | cons b rest ih =>
    have hb : b < 256 := h b (by simp)
    have hhi : b / 16 < 16 := Nat.div_lt_of_lt_mul (by omega)
    have hlo : b % 16 < 16 := Nat.mod_lt _ (by omega)
    have hrest : parseHexBytes (toHexChars rest) = some rest :=
      ih (fun b hb => h b (by simp [hb]))
    simp only [toHexChars, parseHexBytes, hexVal_hexDigit _ hhi,
      hexVal_hexDigit _ hlo, hrest]
    rw [Nat.div_add_mod]

theorem toHexChars_eq_zeros_iff (bs : List Nat) (h : ∀ b ∈ bs, b < 256) :
    toHexChars bs = List.replicate (2 * bs.length) '0' ↔ ∀ b ∈ bs, b = 0 := by
  induction bs with
  | nil => simp [toHexChars]
  | cons b rest ih =>
    have hb : b < 256 := h b (by simp)
    have hhi : b / 16 < 16 := Nat.div_lt_of_lt_mul (by omega)
    have hlo : b % 16 < 16 := Nat.mod_lt _ (by omega)
    have hrepl : 2 * (b :: rest).length = ((2 * rest.length) + 1) + 1 := by
      simp [List.length_cons]; ring
    rw [hrepl]
    simp only [toHexChars, List.replicate_succ, List.cons.injEq]
    rw [hexDigit_eq_zero_iff _ hhi, hexDigit_eq_zero_iff _ hlo,
      ih (fun b hb => h b (by simp [hb]))]
    constructor
    · rintro ⟨h1, h2, h3⟩
      intro x hx
      rcases List.mem_cons.mp hx with hx | hx
      · omega
      · exact h3 x hx
    · intro hall
      have hb0 : b = 0 := hall b (by simp)
      exact ⟨by omega, by omega, fun x hx => hall x (by simp [hx])⟩

/-! ## Helper lemmas: splitting a carrier string at its dashes -/

theorem splitDash_of_not_mem (a : List Char) (h : '-' ∉ a) :
    splitDash a = [a] := by
  induction a with
  | nil => rfl
  | cons c cs ih =>
    have hc : c ≠ '-' := by intro he; exact h (by simp [he])
    have hcs : '-' ∉ cs := by intro hm; exact h (by simp [hm])
    simp [splitDash, hc, ih hcs]

theorem splitDash_append_dash (a rest : List Char) (h : '-' ∉ a) :
    splitDash (a ++ '-' :: rest) = a :: splitDash rest := by
  induction a with
  | nil => simp [splitDash]
  | cons c cs ih =>
    have hc : c ≠ '-' := by intro he; exact h (by simp [he])
    have hcs : '-' ∉ cs := by intro hm; exact h (by simp [hm])
    simp only [List.cons_append, splitDash, if_neg hc]
    rw [List.append_eq, ih hcs]

theorem carrier_data (tb sb : List Nat) :
    (generateTraceParent tb sb).traceParent.data
      = ['0','0'] ++ '-' :: (toHexChars tb ++ '-' :: (toHexChars sb ++ '-' :: ['0','1'])) := by
  have h0 : toHexChars [0] = ['0','0'] := by decide
  have h1 : ("-" : String).data = ['-'] := rfl
  have h2 : ("01" : String).data = ['0','1'] := rfl
  show (toHex [0] ++ "-" ++ toHex tb ++ "-" ++ toHex sb ++ "-" ++ "01").data = _
  simp [String.data_append, toHex_data, h0, h1, h2, List.append_assoc]

theorem carrier_split (tb sb : List Nat)
    (htb : ∀ b ∈ tb, b < 256) (hsb : ∀ b ∈ sb, b < 256) :
    splitDash (generateTraceParent tb sb).traceParent.data
      = [['0','0'], toHexChars tb, toHexChars sb, ['0','1']] := by
  rw [carrier_data, splitDash_append_dash _ _ (by decide),
    splitDash_append_dash _ _ (dash_not_mem_toHexChars tb htb),
    splitDash_append_dash _ _ (dash_not_mem_toHexChars sb hsb),
    splitDash_of_not_mem _ (by decide)]

/-- C1: for every request processed by the middleware, the value set on
the `traceparent` header of the forwarded request is exactly the freshly
generated carrier string, and that string matches the grammar
`^[0-9a-f]{2}-[0-9a-f]{32}-[0-9a-f]{16}-[0-9a-f]{2}$` — four
lowercase-hex fields of widths 2, 32, 16, 2, joined by dashes — for every
possible output of the random source. -/
theorem traceparent_matches_grammar (req : NextRequest) (tb sb : List Nat)
    (htl : tb.length = 16) (hsl : sb.length = 8)
    (htb : ∀ b ∈ tb, b < 256) (hsb : ∀ b ∈ sb, b < 256) :
    (middleware req tb sb).headers "traceparent"
        = some (generateTraceParent tb sb).traceParent ∧
    matchesCarrierGrammar (generateTraceParent tb sb).traceParent = true := by
  have ht32 : (toHexChars tb).length = 32 := by rw [toHexChars_length, htl]
  have hs16 : (toHexChars sb).length = 16 := by rw [toHexChars_length, hsl]
  have hall00 : (['0','0'] : List Char).all isLowerHex = true := by decide
  have hall01 : (['0','1'] : List Char).all isLowerHex = true := by decide
  constructor
  · simp [middleware, headersSet]
  · unfold matchesCarrierGrammar
    rw [carrier_split tb sb htb hsb]
    simp [List.all_eq_true, ht32, hs16, hall00, hall01]
    exact ⟨toHexChars_all_lowerHex tb htb, toHexChars_all_lowerHex sb hsb⟩

theorem traceparent_matches_grammar_witness :
    (middleware
        { method := "GET", url := "http://localhost:3000/", headers := fun _ => none }
        (List.replicate 16 0) (List.replicate 8 0)).headers "traceparent"
        = some (generateTraceParent (List.replicate 16 0) (List.replicate 8 0)).traceParent ∧
    matchesCarrierGrammar
        (generateTraceParent (List.replicate 16 0) (List.replicate 8 0)).traceParent
        = true :=
  traceparent_matches_grammar _ _ _ (by decide) (by decide) (by decide) (by decide)

deriving instance DecidableEq for Except

/-- C2 (code evaluated at the failing input): `generateTraceParent`
performs no rejection of all-zero identifiers, so when the random source
outputs all-zero bytes the generated traceId and spanId are the reserved
all-zero values, and the resulting carrier is one the §4.2 decode contract
itself rejects as `InvalidFormat`. -/
theorem all_zero_ids_generated :
    (generateTraceParent (List.replicate 16 0) (List.replicate 8 0)).traceId
        = "00000000000000000000000000000000" ∧
    (generateTraceParent (List.replicate 16 0) (List.replicate 8 0)).spanId
        = "0000000000000000" ∧
    decodeCarrier (generateTraceParent (List.replicate 16 0) (List.replicate 8 0)).traceParent
        = Except.error DecodeError.invalidFormat := by
  refine ⟨rfl, rfl, ?_⟩
  decide

/-- C3: for every inbound request — whatever its header set, in
particular whatever `traceparent` it already carries — the forwarded
request's `traceparent` header is the freshly generated carrier string,
and the outgoing value is the same for any two requests given the same
random bytes: it does not depend on any incoming header. -/
theorem traceparent_always_fresh (req req' : NextRequest) (tb sb : List Nat) :
    (middleware req tb sb).headers "traceparent"
        = some (generateTraceParent tb sb).traceParent ∧
    (middleware req tb sb).headers "traceparent"
        = (middleware req' tb sb).headers "traceparent" := by
  constructor <;> simp [middleware, headersSet]

/-- A carrier value supplied by an upstream caller, used to exercise the
overwrite behaviour on a request that already has a `traceparent`. -/
def upstreamCarrier : String :=
  "00-ffffffffffffffffffffffffffffffff-ffffffffffffffff-01"

/-- A request that already carries an upstream `traceparent` header. -/
def upstreamReq : NextRequest :=
  { method := "GET", url := "http://localhost:3000/",
    headers := fun n => if n = "traceparent" then some upstreamCarrier else none }

/-- C4 (counterexample): a request arriving with a well-formed upstream
`traceparent` is not forwarded unchanged — the middleware replaces it with
the freshly generated carrier. -/
theorem incoming_traceparent_not_preserved :
    upstreamReq.headers "traceparent" = some upstreamCarrier ∧
    (middleware upstreamReq (List.replicate 16 0) (List.replicate 8 0)).headers
        "traceparent" ≠ some upstreamCarrier := by
  refine ⟨rfl, ?_⟩
  decide

/-- C4 (amended): for every inbound request that already carries a
`traceparent` header, the middleware overwrites it: the forwarded request
carries the freshly generated carrier, not the incoming value. -/
theorem incoming_traceparent_overwritten (req : NextRequest) (v : String)
    (tb sb : List Nat) (_h : req.headers "traceparent" = some v) :
    (middleware req tb sb).headers "traceparent"
        = some (generateTraceParent tb sb).traceParent := by
  simp [middleware, headersSet]

theorem incoming_traceparent_overwritten_witness :
    (middleware upstreamReq (List.replicate 16 255) (List.replicate 8 255)).headers
        "traceparent"
      = some (generateTraceParent (List.replicate 16 255) (List.replicate 8 255)).traceParent :=
  incoming_traceparent_overwritten upstreamReq upstreamCarrier
    (List.replicate 16 255) (List.replicate 8 255) rfl

/-- The random bytes whose hex encodings are the traceId
`dd19a611e9ecea7586020b7ec57566d0` and the spanId `5b34ec95e459d3f7` of
the spec's log-format literal check. -/
def demoTraceBytes : List Nat :=
  [0xdd, 0x19, 0xa6, 0x11, 0xe9, 0xec, 0xea, 0x75,
   0x86, 0x02, 0x0b, 0x7e, 0xc5, 0x75, 0x66, 0xd0]

/-- The spanId bytes of the spec's log-format literal check. -/
def demoSpanBytes : List Nat :=
  [0x5b, 0x34, 0xec, 0x95, 0xe4, 0x59, 0xd3, 0xf7]

/-- C5: for every request the middleware emits exactly one log record
(the `logs` list is a singleton), whose line is exactly
`[Request log from middleware]\ttraceId=<hex>\tspanId=<hex>\tmethod=<m>\turl=<u>`
with the same hex identifiers that are placed in the `traceparent` header
of the forwarded request; and on the spec's literal example (method GET,
url http://localhost:3000/, traceId dd19…, spanId 5b34…) the emitted line
is the literal given there. -/
theorem middleware_log_line (req : NextRequest) (tb sb : List Nat) :
    (middleware req tb sb).logs =
      ["[Request log from middleware]\ttraceId=" ++ (generateTraceParent tb sb).traceId ++
        "\tspanId=" ++ (generateTraceParent tb sb).spanId ++
        "\tmethod=" ++ req.method ++ "\turl=" ++ req.url] ∧
    (middleware req tb sb).headers "traceparent" =
      some (toHex [0] ++ "-" ++ (generateTraceParent tb sb).traceId ++ "-" ++
        (generateTraceParent tb sb).spanId ++ "-" ++ "01") ∧
    (middleware
        { method := "GET", url := "http://localhost:3000/", headers := fun _ => none }
        demoTraceBytes demoSpanBytes).logs =
      ["[Request log from middleware]\ttraceId=dd19a611e9ecea7586020b7ec57566d0\tspanId=5b34ec95e459d3f7\tmethod=GET\turl=http://localhost:3000/"] := by
  refine ⟨rfl, ?_, by decide⟩
  simp [middleware, headersSet, generateTraceParent]

/-- C6: called with no active span in the ambient context, the Context
Reader returns exactly the sentinel pair `{traceId: "null", spanId:
"null"}`; being a total function of the (optional) active span, it cannot
throw or fail. -/
theorem getIds_no_active_span :
    getIds none = { traceId := "null", spanId := "null" } := rfl

/-- A span context carrying the (invalid) all-zero identifiers. -/
def allZeroSpanContext : SpanContext :=
  { traceId := "00000000000000000000000000000000", spanId := "0000000000000000" }

/-- C10: whenever an active span exists, the Context Reader returns
exactly the `traceId` and `spanId` of that span's context, unmodified and
unvalidated; a span carrying all-zero identifiers yields those all-zero
strings, not the sentinel, and the absence branch yields the sentinel. -/
theorem getIds_reads_span_context :
    (∀ s : SpanContext, getIds (some s) = { traceId := s.traceId, spanId := s.spanId }) ∧
    getIds (some allZeroSpanContext)
      = { traceId := "00000000000000000000000000000000", spanId := "0000000000000000" } ∧
    getIds (some allZeroSpanContext) ≠ { traceId := "null", spanId := "null" } ∧
    getIds none = { traceId := "null", spanId := "null" } :=
  ⟨fun _ => rfl, rfl, by decide, rfl⟩

/-- Decoding the carrier built by the generator from non-zero random
bytes succeeds and recovers the id bytes, with version 0 and flags 1 (the
two values the generator hardcodes). -/
theorem decode_generated (tb sb : List Nat)
    (htl : tb.length = 16) (hsl : sb.length = 8)
    (htb : ∀ b ∈ tb, b < 256) (hsb : ∀ b ∈ sb, b < 256)
    (htnz : tb ≠ List.replicate 16 0) (hsnz : sb ≠ List.replicate 8 0) :
    decodeCarrier (generateTraceParent tb sb).traceParent
      = Except.ok { version := 0, traceId := tb, spanId := sb, flags := 1 } := by
  have hpt := parseHexBytes_toHexChars tb htb
  have hps := parseHexBytes_toHexChars sb hsb
  have hp00 : parseHexBytes ['0','0'] = some [0] := rfl
  have hp01 : parseHexBytes ['0','1'] = some [1] := rfl
  have ht32 : (toHexChars tb).length = 32 := by rw [toHexChars_length, htl]
  have hs16 : (toHexChars sb).length = 16 := by rw [toHexChars_length, hsl]
  unfold decodeCarrier
  rw [carrier_split tb sb htb hsb]
  simp only [decodeFields, hpt, hps, hp00, hp01, ht32, hs16]
  simp
  exact ⟨fun he => htnz (by rw [he]; decide), fun he => hsnz (by rw [he]; decide)⟩

/-- A non-zero 16-byte id used in concrete examples. -/
def exTraceBytes : List Nat := 1 :: List.replicate 15 0

/-- A non-zero 8-byte id used in concrete examples. -/
def exSpanBytes : List Nat := 1 :: List.replicate 7 0

/-- A valid TraceContext whose flags byte is 0 (unsampled). -/
def ctxFlagsZero : TraceContext :=
  { version := 0, traceId := exTraceBytes, spanId := exSpanBytes, flags := 0 }

/-- The same TraceContext with the sampled flag set, as the generator
always produces. -/
def ctxSampled : TraceContext :=
  { version := 0, traceId := exTraceBytes, spanId := exSpanBytes, flags := 1 }

/-- C7 (counterexample): a valid TraceContext whose flags byte is 0 does
not survive the round trip — the generator's formatting hardcodes the
flags field to `01`, so decoding gives back flags 1, not 0. -/
theorem roundtrip_fails_for_flags_zero :
    ValidTraceContext ctxFlagsZero ∧
    decodeCarrier (encodeCarrier ctxFlagsZero) ≠ Except.ok ctxFlagsZero := by
  exact ⟨by decide, by decide⟩

/-- C7 (amended): for every valid TraceContext x whose flags byte is 1
(the only flags value the generator's formatting can express), decoding
the carrier string obtained by encoding x yields x back. -/
theorem decode_encode_roundtrip (x : TraceContext) (hv : ValidTraceContext x)
    (hf : x.flags = 1) :
    decodeCarrier (encodeCarrier x) = Except.ok x := by
  obtain ⟨hver, htl, hsl, htb, hsb, htnz, hsnz, hfl⟩ := hv
  unfold encodeCarrier
  rw [decode_generated x.traceId x.spanId htl hsl htb hsb htnz hsnz]
  obtain ⟨ver, tid, sid, fl⟩ := x
  change ver = 0 at hver
  change fl = 1 at hf
  subst hver
  subst hf
  rfl

theorem decode_encode_roundtrip_witness :
    decodeCarrier (encodeCarrier ctxSampled) = Except.ok ctxSampled :=
  decode_encode_roundtrip ctxSampled (by decide) (by decide)

/-- C8 (counterexample): the encoding is not injective on whole
TraceContext values — two valid contexts that differ in the flags byte
produce the identical carrier string, because the generator's formatting
hardcodes the flags field. -/
theorem encode_not_injective :
    ValidTraceContext ctxFlagsZero ∧ ValidTraceContext ctxSampled ∧
    ctxFlagsZero ≠ ctxSampled ∧
    encodeCarrier ctxFlagsZero = encodeCarrier ctxSampled := by
  exact ⟨by decide, by decide, by decide, rfl⟩

/-- C8 (amended): the encoding is total (it is a total function of the
TraceContext) and injective in the fields it actually encodes: two
contexts of genuine bytes with the same carrier string have the same
traceId bytes and the same spanId bytes. -/
theorem encode_injective_on_ids (x y : TraceContext)
    (hxt : ∀ b ∈ x.traceId, b < 256) (hxs : ∀ b ∈ x.spanId, b < 256)
    (hyt : ∀ b ∈ y.traceId, b < 256) (hys : ∀ b ∈ y.spanId, b < 256)
    (h : encodeCarrier x = encodeCarrier y) :
    x.traceId = y.traceId ∧ x.spanId = y.spanId := by
  have hd : (encodeCarrier x).data = (encodeCarrier y).data := congrArg String.data h
  unfold encodeCarrier at hd
  have hs := congrArg splitDash hd
  rw [carrier_split x.traceId x.spanId hxt hxs,
    carrier_split y.traceId y.spanId hyt hys] at hs
  simp only [List.cons.injEq] at hs
  obtain ⟨-, ht, hp, -⟩ := hs
  have hpt := parseHexBytes_toHexChars x.traceId hxt
  rw [ht, parseHexBytes_toHexChars y.traceId hyt] at hpt
  have hps := parseHexBytes_toHexChars x.spanId hxs
  rw [hp, parseHexBytes_toHexChars y.spanId hys] at hps
  exact ⟨(Option.some.injEq _ _ ▸ hpt).symm, (Option.some.injEq _ _ ▸ hps).symm⟩

theorem encode_injective_on_ids_witness :
    ctxSampled.traceId = ctxSampled.traceId ∧ ctxSampled.spanId = ctxSampled.spanId :=
  encode_injective_on_ids ctxSampled ctxSampled
    (by decide) (by decide) (by decide) (by decide) rfl

/-- C9: the forwarded request carries the original request's header set
with only `traceparent` changed — every header under a different name has
its original value (present iff it was present), and `traceparent` holds
the freshly generated carrier. -/
theorem middleware_frame (req : NextRequest) (tb sb : List Nat) (name : String)
    (h : name ≠ "traceparent") :
    (middleware req tb sb).headers name = req.headers name ∧
    (middleware req tb sb).headers "traceparent"
        = some (generateTraceParent tb sb).traceParent := by
  constructor
  · simp [middleware, headersSet, h]
  · simp [middleware, headersSet]

theorem middleware_frame_witness :
    (middleware upstreamReq (List.replicate 16 0) (List.replicate 8 0)).headers "accept"
        = upstreamReq.headers "accept" ∧
    (middleware upstreamReq (List.replicate 16 0) (List.replicate 8 0)).headers
        "traceparent"
        = some (generateTraceParent (List.replicate 16 0) (List.replicate 8 0)).traceParent :=
  middleware_frame upstreamReq (List.replicate 16 0) (List.replicate 8 0) "accept"
    (by decide)
